import Mathlib

/-!
# Inventory page (`script/pages/inventory.js`)

A shallow embedding of the `InventoryPage` class: the view state, the derived
product status, HTML escaping, the filter and pagination engine, the client-side
validation and the permission-gated save / delete handlers, followed by the
properties established about them.

Conventions of the embedding.
* JavaScript strings are Lean strings; numbers that the page handles (ids,
  quantities, page numbers) are integers.
* Each handler is a function from the page state and the values it reads
  (form entries, backend answers) to the new state and the list of observable
  effects it performed, in order.
* Collaborators that live outside this file (`Auth.hasPermission`, `API_URL`,
  `String.prototype.toLowerCase`) are fields of `Env`.
-/

namespace InventoryPage

/-! ## Data model -/

/-- A product as delivered by `GET /api/products`. -/
structure Product where
  id : Int
  name : String
  category_id : Int
  category_name : Option String
  quantity : Int
  minimum_stock : Int
  location : Option String
  description : Option String
  deriving DecidableEq, Repr

/-- A category as delivered by `GET /api/categories`. -/
structure Category where
  id : Int
  name : String
  deriving DecidableEq, Repr

/-- The fields set up by the constructor of `InventoryPage`. -/
structure ViewState where
  products : List Product
  filteredProducts : List Product
  currentPage : Int
  itemsPerPage : Nat
  currentProductId : Option Int
  deriving DecidableEq, Repr

/-- The state built by `constructor()`. -/
def initialState : ViewState :=
  { products := [], filteredProducts := [], currentPage := 1, itemsPerPage := 10,
    currentProductId := none }

/-! ## Derived status -/

/-- Method `getProductStatus(product)`. -/
def getProductStatus (product : Product) : String :=
  if product.quantity ≤ 0 then "out_stock"
  else if product.quantity < product.minimum_stock then "low_stock"
  else "in_stock"

/-- Method `getStatusClass(product)`: lookup in the `statusClasses` table. -/
def getStatusClass (product : Product) : String :=
  let status := getProductStatus product
  if status = "out_stock" then "danger"
  else if status = "low_stock" then "warning"
  else if status = "in_stock" then "success"
  else "default"

/-- Method `getStatusText(product)`: lookup in the `statusTexts` table. -/
def getStatusText (product : Product) : String :=
  let status := getProductStatus product
  if status = "out_stock" then "Sin Stock"
  else if status = "low_stock" then "Stock Bajo"
  else if status = "in_stock" then "En Stock"
  else "Desconocido"

/-! ## HTML escaping -/

/-- Model of `s.replace(/c/g, r)` for a one-character pattern `c`: every occurrence of
`c` is replaced by `r`, left to right. -/
def replaceAll (c : Char) (r : String) (s : String) : String :=
  ⟨s.data.flatMap (fun x => if x = c then r.data else [x])⟩

/-- Method `escapeHtml(unsafe)`: five global replacements applied in sequence. -/
def escapeHtml (text : String) : String :=
  replaceAll (Char.ofNat 39) "&#039;"
    (replaceAll (Char.ofNat 34) "&quot;"
      (replaceAll '>' "&gt;"
        (replaceAll '<' "&lt;"
          (replaceAll '&' "&amp;" text))))

/-- The per-character translation table that the specification describes for
`escapeHtml`. -/
def escapeChar (c : Char) : List Char :=
  if c = '&' then "&amp;".data
  else if c = '<' then "&lt;".data
  else if c = '>' then "&gt;".data
  else if c = Char.ofNat 34 then "&quot;".data
  else if c = Char.ofNat 39 then "&#039;".data
  else [c]

/-! ## JavaScript string primitives used by the page -/

/-- The ECMAScript `WhiteSpace` and `LineTerminator` code points, the set that
`String.prototype.trim`, `parseInt` and the string-to-number conversion strip. -/
def isWhiteSpace (c : Char) : Bool :=
  let n := c.toNat
  n = 0x09 || n = 0x0A || n = 0x0B || n = 0x0C || n = 0x0D || n = 0x20 || n = 0xA0 ||
  n = 0x1680 || (0x2000 ≤ n && n ≤ 0x200A) || n = 0x2028 || n = 0x2029 || n = 0x202F ||
  n = 0x205F || n = 0x3000 || n = 0xFEFF

/-- Model of `s.trim()`. -/
def trim (s : String) : String :=
  ⟨((s.data.dropWhile isWhiteSpace).reverse.dropWhile isWhiteSpace).reverse⟩

/-- Model of `s.includes(t)`: `t` occurs in `s` as a contiguous block. -/
def includes (s t : String) : Bool :=
  decide (t.data <:+: s.data)

/-- Value of a digit character in the given radix, if it is one. -/
def digitValue (radix : Nat) (c : Char) : Option Nat :=
  let n := c.toNat
  let v := if 48 ≤ n ∧ n ≤ 57 then some (n - 48)
    else if 97 ≤ n ∧ n ≤ 122 then some (n - 87)
    else if 65 ≤ n ∧ n ≤ 90 then some (n - 55)
    else none
  v.filter (fun d => decide (d < radix))

/-- Longest prefix of radix digits, as their values. -/
def takeDigits (radix : Nat) : List Char → List Nat
  | [] => []
  | c :: cs =>
    match digitValue radix c with
    | some d => d :: takeDigits radix cs
    | none => []

/-- The integer written by a list of digit values, most significant first. -/
def digitsToNat (radix : Nat) (ds : List Nat) : Nat :=
  ds.foldl (fun acc d => radix * acc + d) 0

/-- The optional sign read by `parseInt`: whether it is a minus, and the rest. -/
def stripSign : List Char → Bool × List Char
  | '-' :: r => (true, r)
  | '+' :: r => (false, r)
  | r => (false, r)

/-- The optional `0x` / `0X` prefix read by `parseInt`: the radix, and the rest. -/
def stripRadix : List Char → Nat × List Char
  | '0' :: 'x' :: r => (16, r)
  | '0' :: 'X' :: r => (16, r)
  | r => (10, r)

/-- Model of `parseInt(s)` without a radix argument; `none` stands for `NaN`. Leading
white space is skipped, an optional sign and an optional `0x` / `0X` prefix are
read, then the longest run of digits; anything after it is ignored. -/
def parseInt (s : String) : Option Int :=
  let signed := stripSign (s.data.dropWhile isWhiteSpace)
  let prefixed := stripRadix signed.2
  match takeDigits prefixed.1 prefixed.2 with
  | [] => none
  | ds =>
    some (if signed.1 then -(digitsToNat prefixed.1 ds : Int)
      else (digitsToNat prefixed.1 ds : Int))

/-- How a value compares with zero once converted to a number: the only thing
that `value < 0` observes. `nan` covers `undefined` and text that is not a
numeric literal. -/
inductive NumberClass where
  | nan
  | negative
  | nonNegative
  deriving DecidableEq, Repr

/-- Decimal digits of a literal, as a natural number. -/
def decimalValue (ds : List Char) : Nat :=
  ds.foldl (fun acc d => 10 * acc + (d.toNat - 48)) 0

/-- The exponent part `e[+-]?digits` of a decimal literal, or nothing. -/
def parseExponent : List Char → Option Int
  | [] => some 0
  | e :: r =>
    if e = 'e' ∨ e = 'E' then
      let (negative, ds) :=
        match r with
        | '-' :: ds => (true, ds)
        | '+' :: ds => (false, ds)
        | ds => (false, ds)
      if ds ≠ [] ∧ ds.all Char.isDigit then
        some (if negative then -(decimalValue ds : Int) else (decimalValue ds : Int))
      else none
    else none

/-- An unsigned decimal literal (`12`, `12.`, `12.5`, `.5`, each with an optional
exponent) as a pair `(m, e)` meaning `m * 10 ^ e`. -/
def parseUnsignedDecimal (cs : List Char) : Option (Nat × Int) :=
  let intPart := cs.takeWhile Char.isDigit
  let rest := cs.dropWhile Char.isDigit
  let (fracPart, rest) :=
    match rest with
    | '.' :: r => (r.takeWhile Char.isDigit, r.dropWhile Char.isDigit)
    | r => ([], r)
  if intPart = [] ∧ fracPart = [] then none
  else (parseExponent rest).map
    (fun e => (decimalValue (intPart ++ fracPart), e - (fracPart.length : Int)))

/-- Whether `m * 10 ^ e` rounds to a double other than zero: it does unless it is
at most `2 ^ (-1075)`, half the smallest subnormal. -/
def roundsToNonZero (m : Nat) (e : Int) : Bool :=
  m ≠ 0 && (0 ≤ e || decide (10 ^ (-e).toNat < m * 2 ^ 1075))

/-- A `0x`, `0o` or `0b` integer literal with at least one digit. -/
def isNonDecimalInteger : List Char → Bool
  | '0' :: p :: ds =>
    let radix := if p = 'x' ∨ p = 'X' then 16 else if p = 'o' ∨ p = 'O' then 8
      else if p = 'b' ∨ p = 'B' then 2 else 0
    ds ≠ [] && ds.all (fun d => (digitValue radix d).isSome)
  | _ => false

/-- The class of `Number(s)` for a string `s` (the conversion that `s < 0`
applies): white space is trimmed, the empty string is `0`, a literal of the
numeric grammar gets the sign of its rounded value, everything else is `NaN`. -/
def stringToNumberClass (s : String) : NumberClass :=
  let t := (trim s).data
  if t = [] then .nonNegative
  else if isNonDecimalInteger t then .nonNegative
  else
    let (negative, body) :=
      match t with
      | '-' :: r => (true, r)
      | '+' :: r => (false, r)
      | r => (false, r)
    if body = "Infinity".data then (if negative then .negative else .nonNegative)
    else
      match parseUnsignedDecimal body with
      | none => .nan
      | some (m, e) => if negative && roundsToNonZero m e then .negative else .nonNegative

/-- The class of a form value that may be absent (`undefined` converts to `NaN`). -/
def toNumberClass : Option String → NumberClass
  | none => .nan
  | some s => stringToNumberClass s

/-- Model of `value < 0`. -/
def ltZero (value : Option String) : Bool :=
  toNumberClass value = .negative

/-- Truthiness of a value that is a string or `undefined`. -/
def truthy : Option String → Bool
  | none => false
  | some s => s ≠ ""

/-- Model of `value || fallback` for a value that is a string, `null` or `undefined`. -/
def orElse (value : Option String) (fallback : String) : String :=
  if truthy value then value.getD fallback else fallback

/-- Truthiness of `currentProductId`, which is `null` or a number. -/
def truthyId : Option Int → Bool
  | none => false
  | some n => n ≠ 0

/-! ## Environment, requests and observable effects -/

/-- The collaborators of the page that are defined outside `inventory.js`. -/
structure Env where
  /-- Constant `API_URL` of `utils/constants.js`. -/
  apiUrl : String
  /-- Collaborator `Auth.hasPermission(capability)`. -/
  hasPermission : String → Bool
  /-- Builtin `String.prototype.toLowerCase`. -/
  toLowerCase : String → String
  /-- Result of `sessionStorage.getItem('token')`. -/
  token : Option String

/-- The values that the handlers read from the document. An absent element is
`none`; `productForm` holds the entries of `new FormData(form)`. -/
structure Dom where
  searchInput : Option String
  categoryFilter : Option String
  statusFilter : Option String
  productForm : Option (List (String × String))

inductive Method where
  | GET
  | POST
  | PUT
  | DELETE
  deriving DecidableEq, Repr

/-- One call of `fetch(url, options)`. -/
structure Request where
  method : Method
  url : String
  authorization : String
  body : Option (List (String × String))
  deriving DecidableEq, Repr

/-- What a `fetch` followed by `response.json()` produces: a rejection carrying
an error message, an envelope with `success` set and its `data`, or an envelope
without `success` and its optional `error` text. -/
inductive Response (α : Type) where
  | failed (message : String)
  | success (data : α)
  | refused (error : Option String)

/-- The statistics payload of `GET /api/inventory/stats`. -/
structure Stats where
  totalProducts : Int
  lowStock : Int
  categories : Int
  deriving DecidableEq, Repr

/-- A button of the actions cell of a table row. -/
inductive Action where
  | view (id : Int)
  | edit (id : Int)
  | delete (id : Int)
  deriving DecidableEq, Repr

/-- One `<tr>` written by `renderProducts`. -/
structure Row where
  id : Int
  name : String
  category : String
  quantity : Int
  statusClass : String
  statusText : String
  location : String
  actions : List Action
  deriving DecidableEq, Repr

/-- One element written by `renderPagination`. -/
inductive Control where
  | first (disabled : Bool)
  | previous (target : Int) (disabled : Bool)
  | page (i : Int) (active : Bool)
  | ellipsis
  | next (target : Int) (disabled : Bool)
  | last (target : Int) (disabled : Bool)
  deriving DecidableEq, Repr

/-- What a handler does that is visible outside the page object. -/
inductive Effect where
  | fetch (request : Request)
  | showError (message : String)
  | showSuccess (message : String)
  | tableBody (rows : List Row)
  | pagination (controls : List Control)
  | stats (data : Stats)
  | categoryOptions (options : List (String × String))
  | modalTitle (title : String)
  | formReset
  | formFill (product : Product)
  | showModal (id : String)
  | hideModals
  deriving DecidableEq, Repr

/-- Whether an effect is a network request. -/
def Effect.isRequest : Effect → Bool
  | .fetch _ => true
  | _ => false

/-- The requests among the effects of a handler, in order. -/
def requests (effects : List Effect) : List Request :=
  effects.filterMap (fun e => match e with | .fetch r => some r | _ => none)

/-- The texts of the success banners among the effects of a handler, in order. -/
def successBanners (effects : List Effect) : List String :=
  effects.filterMap (fun e => match e with | .showSuccess message => some message | _ => none)

/-- The `Authorization` header that every request carries. -/
def authorization (env : Env) : String :=
  "Bearer " ++ env.token.getD "null"

/-! ## Rendering -/

/-- Model of `xs.slice(start, end)`. -/
def slice {α : Type} (xs : List α) (start stop : Int) : List α :=
  let len : Int := xs.length
  let k := if start < 0 then max (len + start) 0 else min start len
  let final := if stop < 0 then max (len + stop) 0 else min stop len
  (xs.drop k.toNat).take (final - k).toNat

/-- The `paginatedProducts` of `renderProducts`. -/
def paginatedProducts (s : ViewState) : List Product :=
  let startIndex := (s.currentPage - 1) * s.itemsPerPage
  let endIndex := startIndex + s.itemsPerPage
  slice s.filteredProducts startIndex endIndex

/-- Method `renderActionButtons(product)`. -/
def renderActionButtons (env : Env) (product : Product) : List Action :=
  [Action.view product.id]
    ++ (if env.hasPermission "EDIT_PRODUCT" then [Action.edit product.id] else [])
    ++ (if env.hasPermission "DELETE_PRODUCT" then [Action.delete product.id] else [])

/-- Method `renderProducts()`: the rows written into the table body. -/
def renderProducts (env : Env) (s : ViewState) : List Row :=
  (paginatedProducts s).map (fun product =>
    { id := product.id
      name := escapeHtml product.name
      category := escapeHtml (orElse product.category_name "Sin categoría")
      quantity := product.quantity
      statusClass := getStatusClass product
      statusText := getStatusText product
      location := escapeHtml (orElse product.location "-")
      actions := renderActionButtons env product })

/-- The `totalPages` of `renderPagination`, `Math.ceil(length / itemsPerPage)`,
for a positive page size. -/
def totalPages (s : ViewState) : Nat :=
  (s.filteredProducts.length + s.itemsPerPage - 1) / s.itemsPerPage

/-- The body of the `for` loop of `renderPagination` for one value of `i`. -/
def pageControl (totalPages currentPage i : Int) : List Control :=
  if i = 1 ∨ i = totalPages ∨ (currentPage - 2 ≤ i ∧ i ≤ currentPage + 2) then
    [Control.page i (i = currentPage)]
  else if i = currentPage - 3 ∨ i = currentPage + 3 then [Control.ellipsis]
  else []

/-- The controls written for a given page count and current page. -/
def paginationControls (totalPages : Nat) (currentPage : Int) : List Control :=
  if 1 < totalPages then
    [Control.first (currentPage = 1), Control.previous (currentPage - 1) (currentPage = 1)]
      ++ (List.range' 1 totalPages).flatMap (fun i => pageControl totalPages currentPage i)
      ++ [Control.next (currentPage + 1) (currentPage = totalPages),
          Control.last totalPages (currentPage = totalPages)]
  else []

/-- Method `renderPagination()`: the controls written into the pagination bar. -/
def renderPagination (s : ViewState) : List Control :=
  paginationControls (totalPages s) s.currentPage

/-- Method `changePage(page)`. -/
def changePage (env : Env) (page : Int) (s : ViewState) : ViewState × List Effect :=
  let s1 := { s with currentPage := page }
  (s1, [.tableBody (renderProducts env s1), .pagination (renderPagination s1)])

/-! ## Filtering -/

/-- The predicate passed to `filter` in `handleSearch`. -/
def matchesFilters (env : Env) (searchTerm categoryId status : String) (product : Product) :
    Bool :=
  let matchesSearch :=
    includes (env.toLowerCase product.name) searchTerm ||
      (match product.location with
       | some location => includes (env.toLowerCase location) searchTerm
       | none => false)
  let matchesCategory := categoryId = "" || some product.category_id = parseInt categoryId
  let matchesStatus := status = "" || getProductStatus product = status
  matchesSearch && matchesCategory && matchesStatus

/-- Method `handleSearch()`. -/
def handleSearch (env : Env) (dom : Dom) (s : ViewState) : ViewState × List Effect :=
  let searchTerm := orElse (dom.searchInput.map env.toLowerCase) ""
  let categoryId := orElse dom.categoryFilter ""
  let status := orElse dom.statusFilter ""
  let s1 := { s with
    filteredProducts := s.products.filter (matchesFilters env searchTerm categoryId status) }
  let s2 := { s1 with currentPage := 1 }
  (s2, [.tableBody (renderProducts env s2), .pagination (renderPagination s2)])

/-! ## Loaders -/

/-- The `try` block of `loadStats` after the request: the effects it performs, or
the message of the error it throws. -/
def loadStatsBody (resp : Response Stats) : Except String (List Effect) :=
  match resp with
  | .failed message => .error message
  | .success data => .ok [.stats data]
  | .refused error => .error (orElse error "Error al cargar estadísticas")

/-- Method `loadStats()`. -/
def loadStats (env : Env) (resp : Response Stats) (s : ViewState) : ViewState × List Effect :=
  let request : Request :=
    { method := .GET, url := env.apiUrl ++ "/api/inventory/stats",
      authorization := authorization env, body := none }
  match loadStatsBody resp with
  | .ok effects => (s, .fetch request :: effects)
  | .error _ => (s, [.fetch request, .showError "Error al cargar estadísticas"])

/-- The `try` block of `loadProducts` after the request. -/
def loadProductsBody (env : Env) (resp : Response (List Product)) (s : ViewState) :
    Except String (ViewState × List Effect) :=
  match resp with
  | .failed message => .error message
  | .success data =>
    let s1 := { s with products := data }
    let s2 := { s1 with filteredProducts := s1.products }
    .ok (s2, [.tableBody (renderProducts env s2), .pagination (renderPagination s2)])
  | .refused error => .error (orElse error "Error al cargar productos")

/-- Method `loadProducts()`. -/
def loadProducts (env : Env) (resp : Response (List Product)) (s : ViewState) :
    ViewState × List Effect :=
  let request : Request :=
    { method := .GET, url := env.apiUrl ++ "/api/products",
      authorization := authorization env, body := none }
  match loadProductsBody env resp s with
  | .ok (s1, effects) => (s1, .fetch request :: effects)
  | .error _ => (s, [.fetch request, .showError "Error al cargar productos"])

/-- The `try` block of `loadCategories` after the request. -/
def loadCategoriesBody (resp : Response (List Category)) : Except String (List Effect) :=
  match resp with
  | .failed message => .error message
  | .success data =>
    .ok [.categoryOptions
      (data.map (fun category => (toString category.id, escapeHtml category.name)))]
  | .refused error => .error (orElse error "Error al cargar categorías")

/-- Method `loadCategories()`. -/
def loadCategories (env : Env) (resp : Response (List Category)) (s : ViewState) :
    ViewState × List Effect :=
  let request : Request :=
    { method := .GET, url := env.apiUrl ++ "/api/categories",
      authorization := authorization env, body := none }
  match loadCategoriesBody resp with
  | .ok effects => (s, .fetch request :: effects)
  | .error _ => (s, [.fetch request, .showError "Error al cargar categorías"])

/-! ## Modals, validation, save and delete -/

/-- Method `openAddModal()`. -/
def openAddModal (env : Env) (s : ViewState) : ViewState × List Effect :=
  if !env.hasPermission "ADD_PRODUCT" then
    (s, [.showError "No tiene permisos para agregar productos"])
  else
    ({ s with currentProductId := none },
      [.modalTitle "Agregar Producto", .formReset, .showModal "productModal"])

/-- Method `openEditModal(productId)`. -/
def openEditModal (env : Env) (productId : Int) (resp : Response Product) (s : ViewState) :
    ViewState × List Effect :=
  if !env.hasPermission "EDIT_PRODUCT" then
    (s, [.showError "No tiene permisos para editar productos"])
  else
    let request : Request :=
      { method := .GET, url := env.apiUrl ++ "/api/products/" ++ toString productId,
        authorization := authorization env, body := none }
    match resp with
    | .failed _ => (s, [.fetch request, .showError "Error al cargar el producto"])
    | .success data =>
      ({ s with currentProductId := some productId },
        [.fetch request, .modalTitle "Editar Producto", .formFill data,
          .showModal "productModal"])
    | .refused _ => (s, [.fetch request])

/-- Method `closeModal()`. -/
def closeModal (s : ViewState) : ViewState × List Effect :=
  ({ s with currentProductId := none }, [.hideModals])

/-- The property `key` of `Object.fromEntries(formData.entries())`: the value of
the last entry with that key. -/
def field (productData : List (String × String)) (key : String) : Option String :=
  (productData.reverse.find? (fun entry => entry.1 = key)).map (fun entry => entry.2)

/-- Method `validateProductData(productData)`: the returned boolean and the
banner shown on rejection. -/
def validateProductData (productData : List (String × String)) : Bool × List Effect :=
  if !truthy ((field productData "name").map trim) then
    (false, [.showError "El nombre del producto es requerido"])
  else if !truthy (field productData "category_id") then
    (false, [.showError "Debe seleccionar una categoría"])
  else if ltZero (field productData "quantity") then
    (false, [.showError "La cantidad no puede ser negativa"])
  else if ltZero (field productData "minimum_stock") then
    (false, [.showError "El stock mínimo no puede ser negativo"])
  else (true, [])

/-- The request that `handleSaveProduct` builds from `currentProductId`. -/
def saveRequest (env : Env) (productData : List (String × String)) (s : ViewState) : Request :=
  let url :=
    if truthyId s.currentProductId then
      env.apiUrl ++ "/api/products/" ++ (s.currentProductId.map toString).getD "null"
    else env.apiUrl ++ "/api/products"
  let method := if truthyId s.currentProductId then Method.PUT else Method.POST
  { method := method, url := url, authorization := authorization env, body := some productData }

/-- The `try` block of `handleSaveProduct` after the request. -/
def handleSaveProductBody (env : Env) (saveResp : Response Unit)
    (loadResp : Response (List Product)) (s : ViewState) :
    Except String (ViewState × List Effect) :=
  match saveResp with
  | .failed message => .error message
  | .success _ =>
    let (s1, closed) := closeModal s
    let (s2, loaded) := loadProducts env loadResp s1
    let banner := if truthyId s2.currentProductId then "Producto actualizado"
      else "Producto agregado"
    .ok (s2, closed ++ loaded ++ [.showSuccess banner])
  | .refused error => .error (orElse error "Error al guardar el producto")

/-- Method `handleSaveProduct()`. `saveResp` answers the save request and
`loadResp` the reload of the product list that follows a successful save. -/
def handleSaveProduct (env : Env) (dom : Dom) (saveResp : Response Unit)
    (loadResp : Response (List Product)) (s : ViewState) : ViewState × List Effect :=
  if !env.hasPermission "ADD_PRODUCT" && !env.hasPermission "EDIT_PRODUCT" then
    (s, [.showError "No tiene permisos para realizar esta acción"])
  else
    match dom.productForm with
    | none => (s, [])
    | some productData =>
      let (valid, banner) := validateProductData productData
      if !valid then (s, banner)
      else
        let request := saveRequest env productData s
        match handleSaveProductBody env saveResp loadResp s with
        | .ok (s1, effects) => (s1, .fetch request :: effects)
        | .error message =>
          (s, [.fetch request, .showError (orElse (some message) "Error al guardar el producto")])

/-- Method `openDeleteModal(productId)`. -/
def openDeleteModal (env : Env) (productId : Int) (s : ViewState) : ViewState × List Effect :=
  if !env.hasPermission "DELETE_PRODUCT" then
    (s, [.showError "No tiene permisos para eliminar productos"])
  else
    ({ s with currentProductId := some productId }, [.showModal "deleteConfirmModal"])

/-- The `try` block of `confirmDelete` after the request. -/
def confirmDeleteBody (env : Env) (deleteResp : Response Unit)
    (loadResp : Response (List Product)) (s : ViewState) :
    Except String (ViewState × List Effect) :=
  match deleteResp with
  | .failed message => .error message
  | .success _ =>
    let (s1, closed) := closeModal s
    let (s2, loaded) := loadProducts env loadResp s1
    .ok (s2, closed ++ loaded ++ [.showSuccess "Producto eliminado exitosamente"])
  | .refused error => .error (orElse error "Error al eliminar el producto")

/-- Method `confirmDelete()`. -/
def confirmDelete (env : Env) (deleteResp : Response Unit)
    (loadResp : Response (List Product)) (s : ViewState) : ViewState × List Effect :=
  if !truthyId s.currentProductId || !env.hasPermission "DELETE_PRODUCT" then (s, [])
  else
    let request : Request :=
      { method := .DELETE,
        url := env.apiUrl ++ "/api/products/" ++ (s.currentProductId.map toString).getD "null",
        authorization := authorization env, body := none }
    match confirmDeleteBody env deleteResp loadResp s with
    | .ok (s1, effects) => (s1, .fetch request :: effects)
    | .error message =>
      (s, [.fetch request, .showError (orElse (some message) "Error al eliminar el producto")])

/-! ## Wording of the specification -/

/-- The lower-cased search text: the lower-cased value of the search box, or the
empty text when the page has no search box. -/
def searchText (env : Env) (dom : Dom) : String :=
  match dom.searchInput with
  | some value => env.toLowerCase value
  | none => ""

/-- The filter of the specification: the three conditions that a product has to
meet, for a lower-cased search text, the value of the category selector and the
value of the status selector (the empty value meaning that nothing is selected,
`parseInt` reading the selected category id off the selector value). -/
def MatchesSpec (env : Env) (search category status : String) (p : Product) : Prop :=
  (search.data <:+: (env.toLowerCase p.name).data ∨
    ∃ location, p.location = some location ∧
      search.data <:+: (env.toLowerCase location).data) ∧
  (category = "" ∨ parseInt category = some p.category_id) ∧
  (status = "" ∨ getProductStatus p = status)

/-- The table row that shows a product: its id and quantity, its name, category
and location as escaped text (with the placeholders for a missing category or
location), the badge of its derived status, and the view button followed by the
edit and delete buttons that the session has the capability for. -/
def rowOf (env : Env) (product : Product) : Row :=
  { id := product.id
    name := escapeHtml product.name
    category := escapeHtml (orElse product.category_name "Sin categoría")
    quantity := product.quantity
    statusClass := getStatusClass product
    statusText := getStatusText product
    location := escapeHtml (orElse product.location "-")
    actions := [Action.view product.id]
      ++ (if env.hasPermission "EDIT_PRODUCT" then [Action.edit product.id] else [])
      ++ (if env.hasPermission "DELETE_PRODUCT" then [Action.delete product.id] else []) }

/-- A form value that is missing, empty or made of white space only. -/
def Blank (value : Option String) : Prop :=
  ∀ v, value = some v → ∀ c ∈ v.data, isWhiteSpace c = true

/-- A form value that is present and not empty. -/
def Selected (value : Option String) : Prop :=
  ∃ v, value = some v ∧ v ≠ ""

/-- The pages that get a numbered button according to the specification: the
first page, the last page and the pages within two of the current one. -/
def shownPages (totalPages : Nat) (currentPage : Int) : List Nat :=
  (List.range' 1 totalPages).filter
    (fun i => decide (i = 1 ∨ i = totalPages ∨ |(i : Int) - currentPage| ≤ 2))

/-- The numbered buttons that follow the button of page `previous`, with one
ellipsis in front of each button whose page does not directly follow the page
of the button before it. -/
def buttonsAfter (currentPage : Int) (previous : Nat) : List Nat → List Control
  | [] => []
  | i :: rest =>
    (if i = previous + 1 then [] else [Control.ellipsis])
      ++ Control.page i (i = currentPage) :: buttonsAfter currentPage i rest

/-- The numbered buttons of the given pages with exactly one ellipsis between
two consecutive buttons whose pages are not adjacent, and none elsewhere. -/
def withEllipsis (currentPage : Int) : List Nat → List Control
  | [] => []
  | i :: rest => Control.page i (i = currentPage) :: buttonsAfter currentPage i rest

/-- The condition under which the loop of `renderPagination` writes a button. -/
def Shown (tp : Nat) (cp : Int) (i : Nat) : Prop :=
  (i : Int) = 1 ∨ (i : Int) = tp ∨ (cp - 2 ≤ i ∧ (i : Int) ≤ cp + 2)

/-! ## Concrete inputs used in the examples -/

/-- A session holding exactly the listed capabilities, with ASCII lower-casing. -/
def sessionWith (capabilities : List String) : Env :=
  { apiUrl := "https://bodega.test"
    hasPermission := fun capability => decide (capability ∈ capabilities)
    toLowerCase := fun text => ⟨text.data.map Char.toLower⟩
    token := some "t0k3n" }

/-- Product number `i` of the example lists. -/
def sampleProduct (i : Nat) : Product :=
  { id := i, name := "Tornillo", category_id := 1, category_name := some "Ferretería",
    quantity := i, minimum_stock := 5, location := some "A1", description := none }

/-- A page whose filtered list holds 25 products. -/
def page25 : ViewState :=
  { initialState with
    products := (List.range 25).map sampleProduct
    filteredProducts := (List.range 25).map sampleProduct }

/-- The form of the validation examples: a valid form but for its quantity,
which is not a number. -/
def badQuantityForm : List (String × String) :=
  [("name", "Tornillo"), ("category_id", "1"), ("quantity", "abc"), ("minimum_stock", "5"),
    ("location", "A1"), ("description", "")]

/-- A form that passes validation. -/
def validForm : List (String × String) :=
  [("name", "Tornillo"), ("category_id", "1"), ("quantity", "40"), ("minimum_stock", "5"),
    ("location", "A1"), ("description", "")]

/-- A document holding the given entries in its product form. -/
def domWithForm (entries : List (String × String)) : Dom :=
  { searchInput := some "", categoryFilter := some "", statusFilter := some "",
    productForm := some entries }

/-- A form whose name is white space only. -/
def blankNameForm : List (String × String) :=
  [("name", " \t "), ("category_id", "1"), ("quantity", "40"), ("minimum_stock", "5")]

/-- A page whose filtered list holds 95 products, showing page 5 of 10. -/
def page95 : ViewState :=
  { initialState with
    products := (List.range 95).map sampleProduct
    filteredProducts := (List.range 95).map sampleProduct
    currentPage := 5 }

/-- A page whose product list mixes the three stock states and two locations. -/
def mixedPage : ViewState :=
  { initialState with
    products :=
      [{ id := 1, name := "Tornillo", category_id := 1, category_name := some "Ferretería",
         quantity := 0, minimum_stock := 5, location := some "A1", description := none },
       { id := 2, name := "Martillo", category_id := 1, category_name := some "Ferretería",
         quantity := 3, minimum_stock := 5, location := none, description := none },
       { id := 3, name := "Pintura", category_id := 2, category_name := none,
         quantity := 20, minimum_stock := 5, location := some "Torre B", description := none }]
    currentPage := 4
    currentProductId := some 2 }

/-- The search box, the category selector and the status selector of the examples. -/
def searchDom : Dom :=
  { searchInput := some "TOR", categoryFilter := some "", statusFilter := some "",
    productForm := none }

/-! ## Properties -/

/-! ### Derived status -/

/-- C1: the status of a product depends only on its quantity and minimum stock:
it is `out_stock` when the quantity is at most zero, `low_stock` when the
quantity is positive and below the minimum stock, and `in_stock` otherwise; the
products with quantity 0, with quantity 5 and minimum 10, and with quantity 20
and minimum 10 are `out_stock`, `low_stock` and `in_stock`. -/
theorem getProductStatus_spec (p : Product) :
    (∀ q : Product, q.quantity = p.quantity → q.minimum_stock = p.minimum_stock →
      getProductStatus q = getProductStatus p) ∧
    (p.quantity ≤ 0 → getProductStatus p = "out_stock") ∧
    (0 < p.quantity → p.quantity < p.minimum_stock → getProductStatus p = "low_stock") ∧
    (¬ p.quantity ≤ 0 → ¬ (0 < p.quantity ∧ p.quantity < p.minimum_stock) →
      getProductStatus p = "in_stock") ∧
    (p.quantity = 0 → getProductStatus p = "out_stock") ∧
    (p.quantity = 5 → p.minimum_stock = 10 → getProductStatus p = "low_stock") ∧
    (p.quantity = 20 → p.minimum_stock = 10 → getProductStatus p = "in_stock") := by
  refine ⟨?_, ?_, ?_, ?_, ?_, ?_, ?_⟩
  · intro q hq hm
    simp only [getProductStatus, hq, hm]
  · intro h
    simp [getProductStatus, h]
  · intro h0 h1
    simp [getProductStatus, h1, not_le.mpr h0]
  · intro h0 h1
    have : ¬ p.quantity < p.minimum_stock := fun h => h1 ⟨not_le.mp h0, h⟩
    simp [getProductStatus, h0, this]
  · intro h
    simp [getProductStatus, h]
  · intro h0 h1
    simp [getProductStatus, h0, h1]
  · intro h0 h1
    simp [getProductStatus, h0, h1]

/-! ### HTML escaping -/

theorem replaceAll_data (c : Char) (r s : String) :
    (replaceAll c r s).data = s.data.flatMap (fun x => if x = c then r.data else [x]) := rfl

theorem escape_pointwise (c : Char) :
    ((if c = '&' then "&amp;".data else [c]).flatMap fun x =>
      (if x = '<' then "&lt;".data else [x]).flatMap fun x =>
        (if x = '>' then "&gt;".data else [x]).flatMap fun x =>
          (if x = Char.ofNat 34 then "&quot;".data else [x]).flatMap fun x =>
            if x = Char.ofNat 39 then "&#039;".data else [x]) = escapeChar c := by
  unfold escapeChar
  by_cases h1 : c = '&'
  · subst h1; decide
  by_cases h2 : c = '<'
  · subst h2; decide
  by_cases h3 : c = '>'
  · subst h3; decide
  by_cases h4 : c = Char.ofNat 34
  · subst h4; decide
  by_cases h5 : c = Char.ofNat 39
  · subst h5; decide
  simp [h1, h2, h3, h4, h5]

theorem escapeHtml_data (s : String) : (escapeHtml s).data = s.data.flatMap escapeChar := by
  simp only [escapeHtml, replaceAll_data, List.flatMap_assoc]
  congr 1
  funext c
  exact escape_pointwise c

theorem escapeChar_safe (c x : Char) (hx : x ∈ escapeChar c) :
    x ≠ '<' ∧ x ≠ '>' ∧ x ≠ Char.ofNat 34 ∧ x ≠ Char.ofNat 39 := by
  unfold escapeChar at hx
  by_cases h1 : c = '&'
  · subst h1; revert x; decide
  by_cases h2 : c = '<'
  · subst h2; revert x; decide
  by_cases h3 : c = '>'
  · subst h3; revert x; decide
  by_cases h4 : c = Char.ofNat 34
  · subst h4; revert x; decide
  by_cases h5 : c = Char.ofNat 39
  · subst h5; revert x; decide
  simp [h1, h2, h3, h4, h5] at hx
  subst hx
  exact ⟨h2, h3, h4, h5⟩

/-- C2: `escapeHtml` is the character-by-character translation of its argument
by the table `escapeChar` (no replacement re-escapes the output of an earlier
one), its result contains none of `<`, `>`, the double quote and the apostrophe,
and the six characters `<b>&` apostrophe double-quote become
`&lt;b&gt;&amp;&#039;&quot;`. -/
theorem escapeHtml_translates (s : String) :
    escapeHtml s = ⟨s.data.flatMap escapeChar⟩ ∧
    (∀ x ∈ (escapeHtml s).data,
      x ≠ '<' ∧ x ≠ '>' ∧ x ≠ Char.ofNat 34 ∧ x ≠ Char.ofNat 39) ∧
    escapeHtml "<b>&'\"" = "&lt;b&gt;&amp;&#039;&quot;" := by
  refine ⟨?_, ?_, by decide⟩
  · exact String.ext (escapeHtml_data s)
  · intro x hx
    rw [escapeHtml_data, List.mem_flatMap] at hx
    obtain ⟨c, _, hc⟩ := hx
    exact escapeChar_safe c x hc

/-! ### Filtering -/

theorem orElse_empty (v : Option String) : orElse v "" = v.getD "" := by
  cases v with
  | none => rfl
  | some x =>
    by_cases hx : x = ""
    · subst hx; rfl
    · simp [orElse, truthy, hx]

theorem matchesFilters_iff (env : Env) (search category status : String) (p : Product) :
    matchesFilters env search category status p = true ↔
      MatchesSpec env search category status p := by
  have hcat : some p.category_id = parseInt category ↔ parseInt category = some p.category_id :=
    eq_comm
  unfold matchesFilters MatchesSpec includes
  cases hl : p.location with
  | none =>
    simp only [Bool.and_eq_true, Bool.or_eq_true, decide_eq_true_eq, hcat, Bool.or_false,
      false_and, exists_false, or_false, and_assoc, reduceCtorEq]
  | some loc =>
    simp only [Bool.and_eq_true, Bool.or_eq_true, decide_eq_true_eq, hcat, Option.some.injEq,
      exists_eq_left', and_assoc]

theorem toDigitsCore_eq (n : Nat) :
    ∀ (fuel : Nat) (ds : List Char), n < fuel →
      Nat.toDigitsCore 10 fuel n ds = Nat.toDigits 10 n ++ ds := by
  induction n using Nat.strong_induction_on with
  | _ n ih =>
    intro fuel ds hfuel
    obtain ⟨f, rfl⟩ : ∃ f, fuel = f + 1 := ⟨fuel - 1, by omega⟩
    unfold Nat.toDigits
    simp only [Nat.toDigitsCore]
    by_cases h0 : n / 10 = 0
    · simp [h0]
    · simp only [h0, if_false]
      have hlt : n / 10 < n := by omega
      rw [ih (n / 10) hlt f _ (by omega), ih (n / 10) hlt n _ hlt]
      simp

theorem toDigits_small (n : Nat) (h : n < 10) : Nat.toDigits 10 n = [Nat.digitChar n] := by
  unfold Nat.toDigits
  simp only [Nat.toDigitsCore]
  have h0 : n / 10 = 0 := by omega
  have h1 : n % 10 = n := by omega
  simp [h0, h1]

theorem toDigits_large (n : Nat) (h : 10 ≤ n) :
    Nat.toDigits 10 n = Nat.toDigits 10 (n / 10) ++ [Nat.digitChar (n % 10)] := by
  have h0 : n / 10 ≠ 0 := by omega
  conv_lhs => unfold Nat.toDigits
  simp only [Nat.toDigitsCore, h0, if_false]
  exact toDigitsCore_eq (n / 10) n _ (by omega)

theorem digitValue_digitChar (d : Nat) (h : d < 10) :
    digitValue 10 (Nat.digitChar d) = some d := by
  interval_cases d <;> decide

theorem takeDigits_append (l : List Char) (vs : List Nat) (rest : List Char)
    (h : l.map (digitValue 10) = vs.map some) :
    takeDigits 10 (l ++ rest) = vs ++ takeDigits 10 rest := by
  induction l generalizing vs with
  | nil =>
    cases vs with
    | nil => rfl
    | cons v vs => simp at h
  | cons c l ih =>
    cases vs with
    | nil => simp at h
    | cons v vs =>
      simp only [List.map_cons, List.cons.injEq] at h
      simp only [List.cons_append, takeDigits, h.1]
      exact congrArg _ (ih vs h.2)

theorem toDigits_values (n : Nat) :
    ∃ vs : List Nat, (Nat.toDigits 10 n).map (digitValue 10) = vs.map some ∧ vs ≠ [] ∧
      digitsToNat 10 vs = n := by
  induction n using Nat.strong_induction_on with
  | _ n ih =>
    by_cases h : n < 10
    · refine ⟨[n], ?_, by simp, ?_⟩
      · rw [toDigits_small n h]
        simp [digitValue_digitChar n h]
      · simp [digitsToNat]
    · obtain ⟨vs, h1, h2, h3⟩ := ih (n / 10) (by omega)
      refine ⟨vs ++ [n % 10], ?_, by simp, ?_⟩
      · rw [toDigits_large n (by omega)]
        simp [h1, digitValue_digitChar (n % 10) (by omega)]
      · unfold digitsToNat at h3 ⊢
        rw [List.foldl_append, h3]
        simp only [List.foldl_cons, List.foldl_nil]
        omega

theorem decimal_of_digitValue (c : Char) (v : Nat) (h : digitValue 10 c = some v) :
    48 ≤ c.toNat ∧ c.toNat ≤ 57 := by
  unfold digitValue at h
  simp only [Option.filter_eq_some] at h
  by_contra hc
  split_ifs at h with h1 h2 <;>
    simp only [Option.mem_def, Option.some.injEq, decide_eq_true_eq, reduceCtorEq,
      false_and] at h <;> omega

theorem parseInt_digits (l : List Char) (vs : List Nat)
    (h : l.map (digitValue 10) = vs.map some) (hne : vs ≠ []) :
    parseInt ⟨l⟩ = some (digitsToNat 10 vs : Int) ∧
      parseInt ⟨'-' :: l⟩ = some (-(digitsToNat 10 vs : Int)) := by
  have htake : takeDigits 10 l = vs := by
    have := takeDigits_append l vs [] h
    simpa [takeDigits] using this
  cases l with
  | nil =>
    cases vs with
    | nil => exact absurd rfl hne
    | cons v vs => simp at h
  | cons c rest =>
    cases vs with
    | nil => simp at h
    | cons v vs' =>
      simp only [List.map_cons, List.cons.injEq] at h
      have hc := decimal_of_digitValue c v h.1
      have hws : isWhiteSpace c = false := by
        simp only [isWhiteSpace, Bool.or_eq_false_iff, Bool.and_eq_false_iff,
          decide_eq_false_iff_not]
        omega
      have hminus : c ≠ '-' := by
        intro hc'; subst hc'; simp at hc
      have hplus : c ≠ '+' := by
        intro hc'; subst hc'; simp at hc
      have hx : ∀ r, rest ≠ 'x' :: r := by
        intro r hr; subst hr
        cases vs' with
        | nil => simp at h
        | cons w ws =>
          simp only [List.map_cons, List.cons.injEq] at h
          have := decimal_of_digitValue 'x' w h.2.1
          simp at this
      have hX : ∀ r, rest ≠ 'X' :: r := by
        intro r hr; subst hr
        cases vs' with
        | nil => simp at h
        | cons w ws =>
          simp only [List.map_cons, List.cons.injEq] at h
          have := decimal_of_digitValue 'X' w h.2.1
          simp at this
      have hsign : stripSign (c :: rest) = (false, c :: rest) := by
        unfold stripSign
        split
        · next heq => injection heq with h1 h2; exact absurd h1 hminus
        · next heq => injection heq with h1 h2; exact absurd h1 hplus
        · rfl
      have hradix : stripRadix (c :: rest) = (10, c :: rest) := by
        unfold stripRadix
        split
        · next heq => injection heq with h1 h2; exact absurd h2 (hx _)
        · next heq => injection heq with h1 h2; exact absurd h2 (hX _)
        · rfl
      constructor
      · unfold parseInt
        simp only [List.dropWhile_cons, hws, Bool.false_eq_true, if_false]
        rw [hsign]
        simp only [hradix, htake, Bool.false_eq_true, if_false]
      · unfold parseInt
        have hws2 : isWhiteSpace '-' = false := by decide
        have hsign2 : stripSign ('-' :: c :: rest) = (true, c :: rest) := rfl
        simp only [List.dropWhile_cons, hws2, Bool.false_eq_true, if_false]
        rw [hsign2]
        simp only [hradix, htake, if_true]

theorem parseInt_toString (c : Int) : parseInt (toString c) = some c := by
  cases c with
  | ofNat n =>
    obtain ⟨vs, h1, h2, h3⟩ := toDigits_values n
    have := (parseInt_digits (Nat.toDigits 10 n) vs h1 h2).1
    rw [h3] at this
    exact this
  | negSucc n =>
    obtain ⟨vs, h1, h2, h3⟩ := toDigits_values (n + 1)
    have := (parseInt_digits (Nat.toDigits 10 (n + 1)) vs h1 h2).2
    rw [h3] at this
    have hs : toString (Int.negSucc n) = ⟨'-' :: Nat.toDigits 10 (n + 1)⟩ := by
      show "-" ++ Nat.repr (n + 1) = _
      unfold Nat.repr
      rfl
    rw [hs, this]
    rfl

/-- C3: `handleSearch` sets `filteredProducts` to the products of the full list,
in their original order, that meet all three conditions of `MatchesSpec`: the
lower-cased name or location contains the lower-cased search text, no category
is selected or the product has the selected category id, no status is selected
or the derived status is the selected one. The selected category id is read off
the selector value by `parseInt`, which gives back `c` for the option value that
`loadCategories` writes for the category id `c`. -/
theorem handleSearch_filter (env : Env) (dom : Dom) (s : ViewState) :
    (∃ keep : Product → Bool,
      (∀ p, keep p = true ↔
        MatchesSpec env (searchText env dom) (dom.categoryFilter.getD "")
          (dom.statusFilter.getD "") p) ∧
      (handleSearch env dom s).1.filteredProducts = s.products.filter keep) ∧
    (∀ c : Int, parseInt (toString c) = some c) := by
  refine ⟨⟨matchesFilters env (searchText env dom) (dom.categoryFilter.getD "")
    (dom.statusFilter.getD ""), fun p => matchesFilters_iff _ _ _ _ p, ?_⟩, parseInt_toString⟩
  have h : orElse (dom.searchInput.map env.toLowerCase) "" = searchText env dom := by
    rw [orElse_empty]
    unfold searchText
    cases dom.searchInput <;> rfl
  simp only [handleSearch, orElse_empty, h]

/-! ### Pagination of the table -/

theorem totalPages_eq_ceil (s : ViewState) (hsize : s.itemsPerPage = 10) :
    totalPages s = ⌈(s.filteredProducts.length : ℚ) / 10⌉₊ := by
  unfold totalPages
  rw [hsize]
  generalize s.filteredProducts.length = n
  symm
  by_cases hn : n = 0
  · subst hn; simp
  · have hpos : (n + 10 - 1) / 10 ≠ 0 := by omega
    rw [Nat.ceil_eq_iff hpos]
    have h1 : ((n + 10 - 1) / 10 - 1) * 10 < n := by omega
    have h2 : n ≤ ((n + 10 - 1) / 10) * 10 := by omega
    constructor
    · rw [lt_div_iff₀ (by norm_num)]
      exact_mod_cast h1
    · rw [div_le_iff₀ (by norm_num)]
      exact_mod_cast h2

theorem slice_nat {α : Type} (xs : List α) (a b : Nat) :
    slice xs (a : Int) (b : Int) =
      (xs.drop (min a xs.length)).take (min b xs.length - min a xs.length) := by
  unfold slice
  have h1 : ¬ ((a : Int) < 0) := by omega
  have h2 : ¬ ((b : Int) < 0) := by omega
  have e1 : min (a : Int) (xs.length : Int) = ((min a xs.length : Nat) : Int) := by
    rw [Nat.cast_min]
  have e2 : min (b : Int) (xs.length : Int) = ((min b xs.length : Nat) : Int) := by
    rw [Nat.cast_min]
  simp only [h1, h2, if_false, e1, e2, Int.toNat_ofNat, Int.toNat_sub]

theorem paginatedProducts_page (s : ViewState) (hsize : s.itemsPerPage = 10) (p : Nat)
    (hp : 1 ≤ p) (hcur : s.currentPage = p) :
    paginatedProducts s =
      (s.filteredProducts.drop (min ((p - 1) * 10) s.filteredProducts.length)).take
        (min (10 * p) s.filteredProducts.length
          - min ((p - 1) * 10) s.filteredProducts.length) := by
  unfold paginatedProducts
  have e1 : (s.currentPage - 1) * (s.itemsPerPage : Int) = (((p - 1) * 10 : Nat) : Int) := by
    rw [hsize, hcur]; push_cast; omega
  have e2 : (((p - 1) * 10 : Nat) : Int) + (s.itemsPerPage : Int) = ((10 * p : Nat) : Int) := by
    rw [hsize]; push_cast; omega
  simp only [e1, e2]
  exact slice_nat _ _ _

theorem map_some_drop_take {α : Type} (xs : List α) (a n : Nat) (h : a + n ≤ xs.length) :
    ((xs.drop a).take n).map some = (List.range' (a + 1) n).map (fun j => xs[j - 1]?) := by
  apply List.ext_getElem?
  intro i
  simp only [List.getElem?_map, List.getElem?_take, List.getElem?_drop]
  by_cases hi : i < n
  · rw [List.getElem?_range' _ _ hi]
    have hlt : a + i < xs.length := by omega
    simp [hi, List.getElem?_eq_getElem hlt, Nat.add_right_comm]
  · have : (List.range' (a + 1) n)[i]? = none := by
      rw [List.getElem?_eq_none_iff]; simp; omega
    simp [hi, this]

theorem totalPages_bounds (s : ViewState) (hsize : s.itemsPerPage = 10) :
    (totalPages s - 1) * 10 < s.filteredProducts.length + (if totalPages s = 0 then 1 else 0) ∧
      s.filteredProducts.length ≤ totalPages s * 10 := by
  unfold totalPages
  rw [hsize]
  split <;> omega

theorem renderProducts_rows (env : Env) (s : ViewState) (items : List (Option Product))
    (h : (paginatedProducts s).map some = items) :
    (renderProducts env s).map some = items.map (Option.map (rowOf env)) := by
  subst h
  unfold renderProducts
  rw [List.map_map, List.map_map]
  rfl

/-- C4: with ten items per page the page count is `ceil(N / 10)` for a filtered
list of `N` items, and on every page `p` from 1 to the page count the table
shows exactly the items numbered `(p - 1) * 10 + 1` through `min (10 * p) N`, one
row `rowOf` per item in that order: ten items on every page before the last and
between one and ten on the last; 25 filtered products give 3 pages, and page 3
shows the items 21 to 25. -/
theorem pagination_pages (env : Env) (s : ViewState) (hsize : s.itemsPerPage = 10) :
    totalPages s = ⌈(s.filteredProducts.length : ℚ) / 10⌉₊ ∧
    (∀ p : Nat, 1 ≤ p → p ≤ totalPages s →
      (paginatedProducts { s with currentPage := p }).map some =
        (List.range' ((p - 1) * 10 + 1)
          (min (10 * p) s.filteredProducts.length - (p - 1) * 10)).map
          (fun j => s.filteredProducts[j - 1]?) ∧
      (renderProducts env { s with currentPage := p }).map some =
        (List.range' ((p - 1) * 10 + 1)
          (min (10 * p) s.filteredProducts.length - (p - 1) * 10)).map
          (fun j => (s.filteredProducts[j - 1]?).map (rowOf env)) ∧
      (paginatedProducts { s with currentPage := p }).length =
        min (10 * p) s.filteredProducts.length - (p - 1) * 10 ∧
      (renderProducts env { s with currentPage := p }).length =
        (paginatedProducts { s with currentPage := p }).length ∧
      (p < totalPages s → (paginatedProducts { s with currentPage := p }).length = 10) ∧
      (p = totalPages s → 1 ≤ (paginatedProducts { s with currentPage := p }).length ∧
        (paginatedProducts { s with currentPage := p }).length ≤ 10)) ∧
    (s.filteredProducts.length = 25 → totalPages s = 3 ∧
      (paginatedProducts { s with currentPage := 3 }).map some =
        (List.range' 21 5).map (fun j => s.filteredProducts[j - 1]?) ∧
      (renderProducts env { s with currentPage := 3 }).map some =
        (List.range' 21 5).map (fun j => (s.filteredProducts[j - 1]?).map (rowOf env))) := by
  have hb := totalPages_bounds s hsize
  have key : ∀ p : Nat, 1 ≤ p → p ≤ totalPages s →
      paginatedProducts { s with currentPage := p } =
        (s.filteredProducts.drop ((p - 1) * 10)).take
          (min (10 * p) s.filteredProducts.length - (p - 1) * 10) := by
    intro p hp1 hp2
    have hne : totalPages s ≠ 0 := by omega
    rw [paginatedProducts_page { s with currentPage := p } hsize p hp1 rfl]
    have hlt : (p - 1) * 10 ≤ s.filteredProducts.length := by
      have : (p - 1) * 10 ≤ (totalPages s - 1) * 10 := by
        apply Nat.mul_le_mul_right; omega
      simp only [hne, if_false] at hb
      omega
    simp only [Nat.min_eq_left hlt]
  refine ⟨totalPages_eq_ceil s hsize, ?_, ?_⟩
  · intro p hp1 hp2
    have hne : totalPages s ≠ 0 := by omega
    simp only [hne, if_false] at hb
    have hlt : (p - 1) * 10 < s.filteredProducts.length := by
      have : (p - 1) * 10 ≤ (totalPages s - 1) * 10 := by
        apply Nat.mul_le_mul_right; omega
      omega
    have hlen : (paginatedProducts { s with currentPage := p }).length =
        min (10 * p) s.filteredProducts.length - (p - 1) * 10 := by
      rw [key p hp1 hp2, List.length_take, List.length_drop]
      omega
    have hitems : (paginatedProducts { s with currentPage := p }).map some =
        (List.range' ((p - 1) * 10 + 1)
          (min (10 * p) s.filteredProducts.length - (p - 1) * 10)).map
          (fun j => s.filteredProducts[j - 1]?) := by
      rw [key p hp1 hp2]
      apply map_some_drop_take
      omega
    refine ⟨hitems, ?_, hlen, ?_, ?_, ?_⟩
    · rw [renderProducts_rows env _ _ hitems, List.map_map]
      rfl
    · simp [renderProducts]
    · intro hlast
      rw [hlen]
      have : p * 10 ≤ (totalPages s - 1) * 10 := by
        apply Nat.mul_le_mul_right; omega
      omega
    · intro hlast
      rw [hlen]
      subst hlast
      omega
  · intro h25
    have htp : totalPages s = 3 := by
      unfold totalPages; rw [hsize, h25]
    have h3 := key 3 (by omega) (by omega)
    rw [h25] at h3
    have e : paginatedProducts { s with currentPage := 3 } =
        (s.filteredProducts.drop 20).take 5 := h3
    have hitems : (paginatedProducts { s with currentPage := 3 }).map some =
        (List.range' 21 5).map (fun j => s.filteredProducts[j - 1]?) := by
      rw [e]
      exact map_some_drop_take _ 20 5 (by omega)
    refine ⟨htp, hitems, ?_⟩
    rw [renderProducts_rows env _ _ hitems, List.map_map]
    rfl

theorem pagination_pages_witness :
    page25.itemsPerPage = 10 ∧
      (renderProducts (sessionWith []) { page25 with currentPage := 3 }).map (fun r => r.id) =
        [20, 21, 22, 23, 24] ∧
      totalPages page25 = 3 ∧
      (paginatedProducts { page25 with currentPage := 3 }).map some =
        (List.range' 21 5).map (fun j => page25.filteredProducts[j - 1]?) ∧
      (renderProducts (sessionWith []) { page25 with currentPage := 3 }).map some =
        (List.range' 21 5).map
          (fun j => (page25.filteredProducts[j - 1]?).map (rowOf (sessionWith []))) :=
  ⟨rfl, by decide, (pagination_pages (sessionWith []) page25 rfl).2.2 (by decide)⟩

/-! ### Validation, save and delete -/

theorem dropWhile_eq_nil_of_all {α : Type} (p : α → Bool) (l : List α)
    (h : ∀ c ∈ l, p c = true) : l.dropWhile p = [] := by
  induction l with
  | nil => rfl
  | cons a l ih =>
    have ha : p a = true := h a (List.mem_cons_self a l)
    simp only [List.dropWhile_cons, ha, if_true]
    exact ih (fun c hc => h c (List.mem_cons_of_mem a hc))

theorem mem_dropWhile_of_not {α : Type} (p : α → Bool) (l : List α) (c : α)
    (hc : c ∈ l) (hp : p c = false) : c ∈ l.dropWhile p := by
  induction l with
  | nil => cases hc
  | cons a l ih =>
    by_cases ha : p a = true
    · simp only [List.dropWhile_cons, ha, if_true]
      rcases List.mem_cons.mp hc with h | h
      · subst h; rw [hp] at ha; cases ha
      · exact ih h
    · simp only [List.dropWhile_cons, ha]
      exact hc

theorem trim_eq_empty_iff (v : String) :
    trim v = "" ↔ ∀ c ∈ v.data, isWhiteSpace c = true := by
  constructor
  · intro h c hc
    by_contra hws
    have hws' : isWhiteSpace c = false := by simpa using hws
    have h1 : c ∈ v.data.dropWhile isWhiteSpace := mem_dropWhile_of_not _ _ c hc hws'
    have h2 : c ∈ ((v.data.dropWhile isWhiteSpace).reverse.dropWhile isWhiteSpace) :=
      mem_dropWhile_of_not _ _ c (List.mem_reverse.mpr h1) hws'
    have h3 : (trim v).data = [] := by rw [h]
    have h4 : c ∈ (trim v).data := List.mem_reverse.mpr h2
    rw [h3] at h4
    cases h4
  · intro h
    unfold trim
    rw [dropWhile_eq_nil_of_all _ _ h]
    rfl

theorem truthy_name_iff (value : Option String) :
    truthy (value.map trim) = false ↔ Blank value := by
  unfold Blank
  cases value with
  | none => simp [truthy]
  | some v =>
    simp only [Option.map_some', truthy, Option.some.injEq, forall_eq', decide_eq_false_iff_not,
      ne_eq, not_not]
    exact trim_eq_empty_iff v

theorem validateProductData_blank (productData : List (String × String))
    (h : Blank (field productData "name")) : validateProductData productData =
      (false, [.showError "El nombre del producto es requerido"]) := by
  unfold validateProductData
  rw [(truthy_name_iff _).mpr h]
  rfl

theorem handleSaveProduct_rejected (env : Env) (dom : Dom) (saveResp : Response Unit)
    (loadResp : Response (List Product)) (s : ViewState) (productData : List (String × String))
    (hform : dom.productForm = some productData)
    (hvalid : (validateProductData productData).1 = false) :
    (handleSaveProduct env dom saveResp loadResp s).1 = s ∧
      requests (handleSaveProduct env dom saveResp loadResp s).2 = [] := by
  have hnone : ∀ e ∈ (validateProductData productData).2, Effect.isRequest e = false := by
    unfold validateProductData
    intro e he
    split_ifs at he <;> simp at he <;> subst he <;> rfl
  unfold handleSaveProduct
  split_ifs with hperm
  · exact ⟨rfl, rfl⟩
  · rw [hform]
    simp only [hvalid, Bool.not_false, if_true]
    refine ⟨trivial, ?_⟩
    unfold requests
    rw [List.filterMap_eq_nil_iff]
    intro e he
    have := hnone e he
    cases e <;> simp_all [Effect.isRequest]

/-- C5: when the name field of the form is missing, empty or white space only,
`validateProductData` returns `false` and, whatever the permissions, the page
state and the backend, `handleSaveProduct` issues no network request. -/
theorem blank_name_rejected (productData : List (String × String))
    (hblank : Blank (field productData "name")) :
    (validateProductData productData).1 = false ∧
    ∀ (env : Env) (dom : Dom) (saveResp : Response Unit) (loadResp : Response (List Product))
      (s : ViewState),
      (dom.productForm = none ∨ dom.productForm = some productData) →
      requests (handleSaveProduct env dom saveResp loadResp s).2 = [] := by
  have hv : (validateProductData productData).1 = false := by
    rw [validateProductData_blank productData hblank]
  refine ⟨hv, ?_⟩
  intro env dom saveResp loadResp s hform
  rcases hform with hform | hform
  · unfold handleSaveProduct
    rw [hform]
    split_ifs <;> rfl
  · exact (handleSaveProduct_rejected env dom saveResp loadResp s productData hform hv).2



theorem blankNameForm_blank : Blank (field blankNameForm "name") := by
  intro v hv
  have h : field blankNameForm "name" = some " \t " := by decide
  rw [h] at hv
  injection hv with hv
  subst hv
  decide

theorem blank_name_rejected_witness :
    Blank (field blankNameForm "name") ∧ (validateProductData blankNameForm).1 = false ∧
      requests (handleSaveProduct (sessionWith ["ADD_PRODUCT", "EDIT_PRODUCT"])
        (domWithForm blankNameForm) (.success ()) (.success []) initialState).2 = [] :=
  ⟨blankNameForm_blank, (blank_name_rejected blankNameForm blankNameForm_blank).1,
    (blank_name_rejected blankNameForm blankNameForm_blank).2 _ _ _ _ _ (Or.inr rfl)⟩

/-- C6, as stated, fails: a form whose quantity is the text `abc` passes
`validateProductData` although its quantity is not a number, and the save
request is sent. -/
theorem validate_accepts_text_quantity :
    (validateProductData badQuantityForm).1 = true ∧
    toNumberClass (field badQuantityForm "quantity") = .nan ∧
    requests (handleSaveProduct (sessionWith ["ADD_PRODUCT"]) (domWithForm badQuantityForm)
        (.refused none) (.success []) initialState).2 =
      [{ method := .POST, url := "https://bodega.test/api/products",
         authorization := "Bearer t0k3n", body := some badQuantityForm }] := by
  refine ⟨by decide, by decide, by decide⟩

/-- C6, amended: `validateProductData` returns `true` exactly when the name is
not blank, a category is selected and neither the quantity nor the minimum stock
converts to a number below zero (text that is not a number is accepted); whenever
it returns `false`, `handleSaveProduct` sends no request. -/
theorem validateProductData_iff (productData : List (String × String)) :
    ((validateProductData productData).1 = true ↔
      ¬ Blank (field productData "name") ∧ Selected (field productData "category_id") ∧
      toNumberClass (field productData "quantity") ≠ .negative ∧
      toNumberClass (field productData "minimum_stock") ≠ .negative) ∧
    ((validateProductData productData).1 = false →
      ∀ (env : Env) (dom : Dom) (saveResp : Response Unit)
        (loadResp : Response (List Product)) (s : ViewState),
        dom.productForm = some productData →
        requests (handleSaveProduct env dom saveResp loadResp s).2 = []) := by
  constructor
  · have hsel : ∀ value : Option String, truthy value = true ↔ Selected value := by
      intro value
      cases value with
      | none => simp [truthy, Selected]
      | some v => simp [truthy, Selected]
    have hname : truthy ((field productData "name").map trim) = true ↔
        ¬ Blank (field productData "name") := by
      rw [← truthy_name_iff]; simp
    unfold validateProductData ltZero
    rw [← hname, ← hsel]
    cases truthy ((field productData "name").map trim) <;>
      cases truthy (field productData "category_id") <;>
      cases toNumberClass (field productData "quantity") <;>
      cases toNumberClass (field productData "minimum_stock") <;> simp
  · intro hv env dom saveResp loadResp s hform
    exact (handleSaveProduct_rejected env dom saveResp loadResp s productData hform hv).2

theorem validateProductData_iff_witness :
    (validateProductData [("name", "Tornillo"), ("category_id", "1"), ("quantity", "-1"),
        ("minimum_stock", "5")]).1 = false ∧
      requests (handleSaveProduct (sessionWith ["ADD_PRODUCT"])
        (domWithForm [("name", "Tornillo"), ("category_id", "1"), ("quantity", "-1"),
          ("minimum_stock", "5")]) (.success ()) (.success []) initialState).2 = [] :=
  ⟨by decide, (validateProductData_iff _).2 (by decide) _ _ _ _ _ rfl⟩


/-- C7, as stated, fails: a session holding only `EDIT_PRODUCT` sends a POST
from the initial page state, and a session holding `ADD_PRODUCT` and
`DELETE_PRODUCT` but not `EDIT_PRODUCT` sends a PUT once `openDeleteModal` has set
`currentProductId`. -/
theorem save_request_without_its_capability :
    ((sessionWith ["EDIT_PRODUCT"]).hasPermission "ADD_PRODUCT" = false ∧
      (requests (handleSaveProduct (sessionWith ["EDIT_PRODUCT"]) (domWithForm validForm)
        (.refused none) (.success []) initialState).2).map (fun r => r.method) = [.POST]) ∧
    ((sessionWith ["ADD_PRODUCT", "DELETE_PRODUCT"]).hasPermission "EDIT_PRODUCT" = false ∧
      (requests (handleSaveProduct (sessionWith ["ADD_PRODUCT", "DELETE_PRODUCT"])
        (domWithForm validForm) (.refused none) (.success [])
        (openDeleteModal (sessionWith ["ADD_PRODUCT", "DELETE_PRODUCT"]) 5 initialState).1).2).map
          (fun r => r.method) = [.PUT]) := by
  refine ⟨⟨by decide, by decide⟩, ⟨by decide, by decide⟩⟩

/-- C7, amended: `handleSaveProduct` sends a POST or a PUT only if the session
holds `ADD_PRODUCT` or `EDIT_PRODUCT` (either one, whichever request it is), and
`confirmDelete` sends a DELETE only if the session holds `DELETE_PRODUCT`. -/
theorem mutating_requests_gated (env : Env) (dom : Dom) (saveResp deleteResp : Response Unit)
    (loadResp : Response (List Product)) (s : ViewState) :
    (∀ r ∈ requests (handleSaveProduct env dom saveResp loadResp s).2,
      r.method = .POST ∨ r.method = .PUT →
        env.hasPermission "ADD_PRODUCT" = true ∨ env.hasPermission "EDIT_PRODUCT" = true) ∧
    (∀ r ∈ requests (confirmDelete env deleteResp loadResp s).2,
      r.method = .DELETE → env.hasPermission "DELETE_PRODUCT" = true) := by
  constructor
  · intro r hr _
    by_contra hno
    have h1 : env.hasPermission "ADD_PRODUCT" = false := by
      cases h : env.hasPermission "ADD_PRODUCT" <;> simp_all
    have h2 : env.hasPermission "EDIT_PRODUCT" = false := by
      cases h : env.hasPermission "EDIT_PRODUCT" <;> simp_all
    simp [handleSaveProduct, h1, h2, requests] at hr
  · intro r hr _
    by_contra hno
    have h1 : env.hasPermission "DELETE_PRODUCT" = false := by
      cases h : env.hasPermission "DELETE_PRODUCT" <;> simp_all
    simp [confirmDelete, h1, requests] at hr

theorem mutating_requests_gated_witness :
    (sessionWith ["ADD_PRODUCT"]).hasPermission "ADD_PRODUCT" = true ∨
      (sessionWith ["ADD_PRODUCT"]).hasPermission "EDIT_PRODUCT" = true :=
  (mutating_requests_gated (sessionWith ["ADD_PRODUCT"]) (domWithForm validForm) (.refused none)
    (.refused none) (.success []) initialState).1
    { method := .POST, url := "https://bodega.test/api/products",
      authorization := "Bearer t0k3n", body := some validForm } (by decide) (Or.inl rfl)

theorem handleSaveProduct_sends (env : Env) (dom : Dom) (saveResp : Response Unit)
    (loadResp : Response (List Product)) (s : ViewState) (productData : List (String × String))
    (hperm : env.hasPermission "ADD_PRODUCT" = true ∨ env.hasPermission "EDIT_PRODUCT" = true)
    (hform : dom.productForm = some productData)
    (hvalid : (validateProductData productData).1 = true) :
    (handleSaveProduct env dom saveResp loadResp s).2.head? =
      some (.fetch (saveRequest env productData s)) := by
  have hguard : (!env.hasPermission "ADD_PRODUCT" && !env.hasPermission "EDIT_PRODUCT") = false := by
    rcases hperm with h | h <;> simp [h]
  unfold handleSaveProduct
  rw [hguard, hform]
  simp only [hvalid, Bool.false_eq_true, if_false, Bool.not_true]
  cases handleSaveProductBody env saveResp loadResp s <;> rfl

/-- C8 at the failing input: after `openEditModal(0)` has set `currentProductId`
to the product id 0, a valid save sends POST to `/api/products` instead of PUT to
`/api/products/0`; with the product id 7 it sends PUT to `/api/products/7`. In
general the request is a POST to `/api/products` when `currentProductId` is
`null` or 0, and a PUT to `/api/products/{id}` for every other id. -/
theorem save_with_product_id_zero :
    ((openEditModal (sessionWith ["EDIT_PRODUCT"]) 0 (.success (sampleProduct 0))
      initialState).1.currentProductId = some 0 ∧
    (requests (handleSaveProduct (sessionWith ["EDIT_PRODUCT"]) (domWithForm validForm)
      (.refused none) (.success [])
      (openEditModal (sessionWith ["EDIT_PRODUCT"]) 0 (.success (sampleProduct 0))
        initialState).1).2).map (fun r => (r.method, r.url)) =
      [(.POST, "https://bodega.test/api/products")] ∧
    (requests (handleSaveProduct (sessionWith ["EDIT_PRODUCT"]) (domWithForm validForm)
      (.refused none) (.success [])
      (openEditModal (sessionWith ["EDIT_PRODUCT"]) 7 (.success (sampleProduct 7))
        initialState).1).2).map (fun r => (r.method, r.url)) =
      [(.PUT, "https://bodega.test/api/products/7")]) ∧
    (∀ (env : Env) (productData : List (String × String)) (s : ViewState),
      (s.currentProductId = none ∨ s.currentProductId = some 0) →
        (saveRequest env productData s).method = .POST ∧
        (saveRequest env productData s).url = env.apiUrl ++ "/api/products") ∧
    (∀ (env : Env) (productData : List (String × String)) (s : ViewState) (id : Int),
      s.currentProductId = some id → id ≠ 0 →
        (saveRequest env productData s).method = .PUT ∧
        (saveRequest env productData s).url = env.apiUrl ++ "/api/products/" ++ toString id) := by
  refine ⟨⟨by decide, by decide, by decide⟩, ?_, ?_⟩
  · intro env productData s h
    rcases h with h | h <;> simp [saveRequest, truthyId, h]
  · intro env productData s id h hid
    simp [saveRequest, truthyId, h, hid]

/-- C9 at the failing input: when the backend answers `success = false`, with
or without an error message, each of the three loaders shows its fixed generic
text; the message `Base de datos no disponible` sent for the product list is not
shown. -/
theorem loaders_show_generic_message (env : Env) (s : ViewState) (error : Option String) :
    ((loadStats env (.refused error) s).2.filter (fun e => !e.isRequest) =
      [.showError "Error al cargar estadísticas"]) ∧
    ((loadProducts env (.refused error) s).2.filter (fun e => !e.isRequest) =
      [.showError "Error al cargar productos"]) ∧
    ((loadCategories env (.refused error) s).2.filter (fun e => !e.isRequest) =
      [.showError "Error al cargar categorías"]) ∧
    (loadProducts (sessionWith []) (.refused (some "Base de datos no disponible"))
        initialState).2 =
      [.fetch { method := .GET, url := "https://bodega.test/api/products",
                authorization := "Bearer t0k3n", body := none },
       .showError "Error al cargar productos"] := by
  refine ⟨rfl, rfl, rfl, by decide⟩

/-! ### Pagination controls -/

theorem shown_iff (tp : Nat) (cp : Int) (i : Nat) :
    (i = 1 ∨ i = tp ∨ |(i : Int) - cp| ≤ 2) ↔ Shown tp cp i := by
  unfold Shown
  rw [abs_le]
  constructor
  · rintro (h | h | h)
    · left; omega
    · right; left; omega
    · right; right; omega
  · rintro (h | h | h)
    · left; omega
    · right; left; omega
    · right; right; omega

theorem pageControl_shown (tp : Nat) (cp : Int) (i : Nat) (h : Shown tp cp i) :
    pageControl tp cp i = [Control.page i (i = cp)] := by
  unfold Shown at h
  unfold pageControl
  rw [if_pos h]

theorem pageControl_ellipsis (tp : Nat) (cp : Int) (i : Nat) (h : ¬ Shown tp cp i)
    (he : (i : Int) = cp - 3 ∨ (i : Int) = cp + 3) :
    pageControl tp cp i = [Control.ellipsis] := by
  unfold Shown at h
  unfold pageControl
  rw [if_neg h, if_pos he]

theorem pageControl_hidden (tp : Nat) (cp : Int) (i : Nat) (h : ¬ Shown tp cp i)
    (he : ¬ ((i : Int) = cp - 3 ∨ (i : Int) = cp + 3)) :
    pageControl tp cp i = [] := by
  unfold Shown at h
  unfold pageControl
  rw [if_neg h, if_neg he]

theorem gap_controls (tp : Nat) (cp : Int) (hcp1 : 1 ≤ cp) (hcp2 : cp ≤ tp)
    (prev k : Nat) (hprev : 1 ≤ prev) (hlt : prev < k) (hk : k ≤ tp)
    (hsp : Shown tp cp prev) (hsk : Shown tp cp k)
    (hgap : ∀ j, prev < j → j < k → ¬ Shown tp cp j) :
    (List.range' (prev + 1) (k - prev - 1)).flatMap (fun i => pageControl tp cp i) =
      if k = prev + 1 then [] else [Control.ellipsis] := by
  by_cases hadj : k = prev + 1
  · subst hadj
    simp
  rw [if_neg hadj]
  have hlast := hgap (k - 1) (by omega) (by omega)
  have hfirst := hgap (prev + 1) (by omega) (by omega)
  unfold Shown at hsp hsk hlast hfirst
  by_cases hside : (k : Int) ≤ cp
  · -- the gap lies left of the current page and ends at `cp - 3`
    have hk2 : (k : Int) = cp - 2 := by omega
    obtain ⟨m, hm⟩ : ∃ m, k - prev - 1 = m + 1 := ⟨k - prev - 2, by omega⟩
    rw [hm, List.range'_1_concat, List.flatMap_append, List.flatMap_singleton]
    have hnil : (List.range' (prev + 1) m).flatMap (fun i => pageControl tp cp i) = [] := by
      rw [List.flatMap_eq_nil_iff]
      intro j hj
      rw [List.mem_range'_1] at hj
      have hj' := hgap j (by omega) (by omega)
      apply pageControl_hidden _ _ _ hj'
      omega
    rw [hnil, List.nil_append]
    apply pageControl_ellipsis
    · have := hgap (prev + 1 + m) (by omega) (by omega)
      exact this
    · left; omega
  · -- the gap lies right of the current page and starts at `cp + 3`
    have hcpprev : cp ≤ prev := by
      by_contra hc
      have hcp0 : 0 ≤ cp := by omega
      have := hgap cp.toNat (by omega) (by omega)
      unfold Shown at this
      omega
    have hp2 : (prev : Int) = cp + 2 := by omega
    obtain ⟨m, hm⟩ : ∃ m, k - prev - 1 = m + 1 := ⟨k - prev - 2, by omega⟩
    rw [hm, List.range'_succ, List.flatMap_cons]
    have hnil : (List.range' (prev + 1 + 1) m).flatMap (fun i => pageControl tp cp i) = [] := by
      rw [List.flatMap_eq_nil_iff]
      intro j hj
      rw [List.mem_range'_1] at hj
      have hj' := hgap j (by omega) (by omega)
      apply pageControl_hidden _ _ _ hj'
      omega
    rw [hnil, List.append_nil]
    apply pageControl_ellipsis
    · exact hgap (prev + 1) (by omega) (by omega)
    · right; omega

theorem filter_shown_cons_pos (tp : Nat) (cp : Int) (k : Nat) (l : List Nat)
    (h : Shown tp cp k) :
    (k :: l).filter (fun i => decide (i = 1 ∨ i = tp ∨ |(i : Int) - cp| ≤ 2)) =
      k :: l.filter (fun i => decide (i = 1 ∨ i = tp ∨ |(i : Int) - cp| ≤ 2)) := by
  apply List.filter_cons_of_pos
  exact decide_eq_true ((shown_iff tp cp k).mpr h)

theorem filter_shown_cons_neg (tp : Nat) (cp : Int) (k : Nat) (l : List Nat)
    (h : ¬ Shown tp cp k) :
    (k :: l).filter (fun i => decide (i = 1 ∨ i = tp ∨ |(i : Int) - cp| ≤ 2)) =
      l.filter (fun i => decide (i = 1 ∨ i = tp ∨ |(i : Int) - cp| ≤ 2)) := by
  apply List.filter_cons_of_neg
  intro hd
  exact h ((shown_iff tp cp k).mp (of_decide_eq_true hd))

theorem controls_suffix (tp : Nat) (cp : Int) (hcp1 : 1 ≤ cp) (hcp2 : cp ≤ tp) :
    ∀ (n k prev : Nat), k + n = tp + 1 → 1 ≤ prev → prev < k → Shown tp cp prev →
      (∀ j, prev < j → j < k → ¬ Shown tp cp j) →
      (List.range' (prev + 1) (k - prev - 1)).flatMap (fun i => pageControl tp cp i)
        ++ (List.range' k n).flatMap (fun i => pageControl tp cp i) =
      buttonsAfter cp prev ((List.range' k n).filter
        (fun i => decide (i = 1 ∨ i = tp ∨ |(i : Int) - cp| ≤ 2))) := by
  intro n
  induction n with
  | zero =>
    intro k prev hkn hprev hlt hsp hgap
    have hptp : prev = tp := by
      by_contra hne
      exact hgap tp (by omega) (by omega) (Or.inr (Or.inl rfl))
    have h0 : k - prev - 1 = 0 := by omega
    simp [h0, buttonsAfter]
  | succ n ih =>
    intro k prev hkn hprev hlt hsp hgap
    rw [List.range'_succ, List.flatMap_cons]
    by_cases hsk : Shown tp cp k
    · rw [filter_shown_cons_pos tp cp k _ hsk, buttonsAfter,
        gap_controls tp cp hcp1 hcp2 prev k hprev hlt (by omega) hsp hsk hgap,
        pageControl_shown tp cp k hsk]
      have hih := ih (k + 1) k (by omega) (by omega) (by omega) hsk
        (fun j h1 h2 => by omega)
      have h0 : k + 1 - k - 1 = 0 := by omega
      rw [h0] at hih
      simp only [List.range'_zero, List.flatMap_nil, List.nil_append] at hih
      rw [← hih]
      simp
    · rw [filter_shown_cons_neg tp cp k _ hsk]
      have hih := ih (k + 1) prev (by omega) hprev (by omega) hsp
        (fun j h1 h2 => by
          by_cases hjk : j = k
          · subst hjk; exact hsk
          · exact hgap j h1 (by omega))
      rw [← hih]
      have hlen : k + 1 - prev - 1 = (k - prev - 1) + 1 := by omega
      have hk' : prev + 1 + (k - prev - 1) = k := by omega
      rw [hlen, List.range'_1_concat, List.flatMap_append, List.flatMap_singleton, hk']
      simp

theorem controls_body (tp : Nat) (cp : Int) (htp : 1 < tp) (hcp1 : 1 ≤ cp) (hcp2 : cp ≤ tp) :
    (List.range' 1 tp).flatMap (fun i => pageControl tp cp i) =
      withEllipsis cp (shownPages tp cp) := by
  obtain ⟨n, hn⟩ : ∃ n, tp = n + 1 := ⟨tp - 1, by omega⟩
  have h1 : Shown tp cp 1 := Or.inl rfl
  have hsuf := controls_suffix tp cp hcp1 hcp2 n 2 1 (by omega) (by omega) (by omega) h1
    (fun j hj1 hj2 => by omega)
  unfold shownPages
  rw [hn, List.range'_succ, List.flatMap_cons, ← hn, filter_shown_cons_pos tp cp 1 _ h1,
    withEllipsis, pageControl_shown tp cp 1 h1]
  simp only [List.range'_zero, List.flatMap_nil, List.nil_append] at hsuf
  rw [← hsuf]
  simp

theorem mem_buttonsAfter (cp : Int) (j : Int) (a : Bool) :
    ∀ (l : List Nat) (prev : Nat), Control.page j a ∈ buttonsAfter cp prev l ↔
      ∃ i ∈ l, (i : Int) = j ∧ a = decide ((i : Int) = cp) := by
  intro l
  induction l with
  | nil => intro prev; simp [buttonsAfter]
  | cons x l ih =>
    intro prev
    rw [buttonsAfter, List.mem_append, List.mem_cons, ih x]
    have hno : Control.page j a ∉ (if x = prev + 1 then [] else [Control.ellipsis]) := by
      split_ifs <;> simp
    simp only [hno, false_or, Control.page.injEq, List.mem_cons, exists_eq_or_imp]
    constructor
    · rintro (⟨h1, h2⟩ | h)
      · exact Or.inl ⟨h1.symm, h2⟩
      · exact Or.inr h
    · rintro (⟨h1, h2⟩ | h)
      · exact Or.inl ⟨h1.symm, h2⟩
      · exact Or.inr h

theorem mem_withEllipsis (cp : Int) (j : Int) (a : Bool) (l : List Nat) :
    Control.page j a ∈ withEllipsis cp l ↔
      ∃ i ∈ l, (i : Int) = j ∧ a = decide ((i : Int) = cp) := by
  cases l with
  | nil => simp [withEllipsis]
  | cons x l =>
    rw [withEllipsis, List.mem_cons, mem_buttonsAfter]
    simp only [Control.page.injEq, List.mem_cons, exists_eq_or_imp]
    constructor
    · rintro (⟨h1, h2⟩ | h)
      · exact Or.inl ⟨h1.symm, h2⟩
      · exact Or.inr h
    · rintro (⟨h1, h2⟩ | h)
      · exact Or.inl ⟨h1.symm, h2⟩
      · exact Or.inr h

/-- C10: for a page count above one and a current page between 1 and the page
count, `renderPagination` writes the first and previous controls, then the
numbered buttons of exactly the pages `i` with `i = 1`, `i = totalPages` or
`|i - currentPage| ≤ 2`, with exactly one ellipsis between two consecutive
buttons whose pages are not adjacent and none elsewhere, then the next and last
controls; for a page count of at most one it writes nothing. -/
theorem renderPagination_controls (s : ViewState) :
    (totalPages s ≤ 1 → renderPagination s = []) ∧
    (1 < totalPages s → 1 ≤ s.currentPage → s.currentPage ≤ totalPages s →
      renderPagination s =
        [Control.first (s.currentPage = 1),
          Control.previous (s.currentPage - 1) (s.currentPage = 1)]
        ++ withEllipsis s.currentPage (shownPages (totalPages s) s.currentPage)
        ++ [Control.next (s.currentPage + 1) (s.currentPage = totalPages s),
            Control.last (totalPages s) (s.currentPage = totalPages s)] ∧
      ∀ i : Nat, (∃ active, Control.page i active ∈ renderPagination s) ↔
        (1 ≤ i ∧ i ≤ totalPages s ∧
          (i = 1 ∨ i = totalPages s ∨ |(i : Int) - s.currentPage| ≤ 2))) := by
  constructor
  · intro h
    unfold renderPagination paginationControls
    rw [if_neg (by omega)]
  · intro htp hcp1 hcp2
    have heq : renderPagination s =
        [Control.first (s.currentPage = 1),
          Control.previous (s.currentPage - 1) (s.currentPage = 1)]
        ++ withEllipsis s.currentPage (shownPages (totalPages s) s.currentPage)
        ++ [Control.next (s.currentPage + 1) (s.currentPage = totalPages s),
            Control.last (totalPages s) (s.currentPage = totalPages s)] := by
      unfold renderPagination paginationControls
      rw [if_pos htp, controls_body (totalPages s) s.currentPage htp hcp1 hcp2]
    refine ⟨heq, ?_⟩
    intro i
    rw [heq]
    simp only [List.mem_append, List.mem_cons, List.mem_singleton, reduceCtorEq, or_false,
      false_or, List.not_mem_nil, mem_withEllipsis, shownPages, List.mem_filter,
      List.mem_range'_1, decide_eq_true_eq, Nat.cast_inj]
    constructor
    · rintro ⟨_, k, ⟨⟨hk1, hk2⟩, hk3⟩, hki, _⟩
      subst hki
      exact ⟨hk1, by omega, hk3⟩
    · rintro ⟨h1, h2, h3⟩
      exact ⟨_, i, ⟨⟨h1, by omega⟩, h3⟩, rfl, rfl⟩

theorem renderPagination_controls_witness :
    renderPagination page95 =
      [Control.first false, Control.previous 4 false, Control.page 1 false, Control.ellipsis,
        Control.page 3 false, Control.page 4 false, Control.page 5 true, Control.page 6 false,
        Control.page 7 false, Control.ellipsis, Control.page 10 false, Control.next 6 false,
        Control.last 10 false] :=
  (((renderPagination_controls page95).2 (by decide) (by decide) (by decide)).1).trans
    (by decide)

/-! ### Idempotence and frame of the search -/

theorem filter_idem {α : Type} (keep : α → Bool) (l : List α) :
    (l.filter keep).filter keep = l.filter keep := by
  rw [List.filter_filter]
  congr 1
  funext a
  cases keep a <;> rfl

theorem handleSearch_filteredProducts (env : Env) (dom : Dom) (s : ViewState) :
    (handleSearch env dom s).1.filteredProducts =
      s.products.filter (matchesFilters env (searchText env dom) (dom.categoryFilter.getD "")
        (dom.statusFilter.getD "")) := by
  have h : orElse (dom.searchInput.map env.toLowerCase) "" = searchText env dom := by
    rw [orElse_empty]
    unfold searchText
    cases dom.searchInput <;> rfl
  simp only [handleSearch, orElse_empty, h]

/-- C11: filtering is idempotent. Running `handleSearch` a second time with the
same search text, category and status leaves the page exactly as the first run
left it, in particular the same `filteredProducts`; and filtering the already
filtered list with the filter predicate returns it unchanged. -/
theorem handleSearch_idempotent (env : Env) (dom : Dom) (s : ViewState) :
    (handleSearch env dom (handleSearch env dom s).1).1.filteredProducts =
      (handleSearch env dom s).1.filteredProducts ∧
    handleSearch env dom (handleSearch env dom s).1 = handleSearch env dom s ∧
    (∀ keep : Product → Bool,
      (∀ p, keep p = true ↔
        MatchesSpec env (searchText env dom) (dom.categoryFilter.getD "")
          (dom.statusFilter.getD "") p) →
      (handleSearch env dom s).1.filteredProducts.filter keep =
        (handleSearch env dom s).1.filteredProducts) := by
  refine ⟨rfl, rfl, ?_⟩
  intro keep hkeep
  have hfun : keep = matchesFilters env (searchText env dom) (dom.categoryFilter.getD "")
      (dom.statusFilter.getD "") := by
    funext p
    have h1 := hkeep p
    have h2 := matchesFilters_iff env (searchText env dom) (dom.categoryFilter.getD "")
      (dom.statusFilter.getD "") p
    cases hk : keep p <;>
      cases hm : matchesFilters env (searchText env dom) (dom.categoryFilter.getD "")
        (dom.statusFilter.getD "") p <;> simp_all
  rw [handleSearch_filteredProducts, hfun]
  exact filter_idem _ _

theorem handleSearch_idempotent_witness :
    ((handleSearch (sessionWith []) searchDom mixedPage).1.filteredProducts.map
        (fun p => p.id) = [1, 3]) ∧
      (handleSearch (sessionWith []) searchDom
        (handleSearch (sessionWith []) searchDom mixedPage).1).1.filteredProducts =
        (handleSearch (sessionWith []) searchDom mixedPage).1.filteredProducts :=
  ⟨by decide, (handleSearch_idempotent (sessionWith []) searchDom mixedPage).1⟩

/-- C12: whatever the prior state and the search, category and status inputs,
after `handleSearch` the current page is 1, and the product list and
`currentProductId` (as well as the page size) are what they were. -/
theorem handleSearch_frame (env : Env) (dom : Dom) (s : ViewState) :
    (handleSearch env dom s).1.currentPage = 1 ∧
    (handleSearch env dom s).1.products = s.products ∧
    (handleSearch env dom s).1.currentProductId = s.currentProductId ∧
    (handleSearch env dom s).1.itemsPerPage = s.itemsPerPage :=
  ⟨rfl, rfl, rfl, rfl⟩

theorem handleSearch_frame_witness :
    mixedPage.currentPage = 4 ∧
      (handleSearch (sessionWith []) searchDom mixedPage).1.currentPage = 1 ∧
      (handleSearch (sessionWith []) searchDom mixedPage).1.currentProductId = some 2 :=
  ⟨rfl, (handleSearch_frame (sessionWith []) searchDom mixedPage).1,
    (handleSearch_frame (sessionWith []) searchDom mixedPage).2.2.1⟩

/-! ### Banner of a successful save -/

theorem loadProducts_currentProductId (env : Env) (resp : Response (List Product))
    (s : ViewState) :
    (loadProducts env resp s).1.currentProductId = s.currentProductId := by
  cases resp <;> rfl

theorem loadProducts_no_banner (env : Env) (resp : Response (List Product)) (s : ViewState)
    (message : String) : Effect.showSuccess message ∉ (loadProducts env resp s).2 := by
  cases resp <;> simp [loadProducts, loadProductsBody]

theorem handleSaveProduct_success (env : Env) (dom : Dom) (loadResp : Response (List Product))
    (s : ViewState) (productData : List (String × String))
    (hperm : env.hasPermission "ADD_PRODUCT" = true ∨ env.hasPermission "EDIT_PRODUCT" = true)
    (hform : dom.productForm = some productData)
    (hvalid : (validateProductData productData).1 = true) :
    (handleSaveProduct env dom (.success ()) loadResp s).2 =
      .fetch (saveRequest env productData s) :: .hideModals ::
        ((loadProducts env loadResp { s with currentProductId := none }).2
          ++ [.showSuccess "Producto agregado"]) := by
  have hguard :
      (!env.hasPermission "ADD_PRODUCT" && !env.hasPermission "EDIT_PRODUCT") = false := by
    rcases hperm with h | h <;> simp [h]
  have hid : truthyId (loadProducts env loadResp
      { s with currentProductId := none }).1.currentProductId = false := by
    rw [loadProducts_currentProductId]
    rfl
  unfold handleSaveProduct
  rw [hguard, hform]
  simp only [hvalid, Bool.false_eq_true, if_false, Bool.not_true, handleSaveProductBody,
    closeModal, hid, List.singleton_append, List.cons_append, List.nil_append]

/-- C13 at the failing input: a valid save made while editing product 7, answered
with success, sends PUT to `/api/products/7` and then shows the banner
`Producto agregado`, not `Producto actualizado`. In general every successful
save shows `Producto agregado`, whatever `currentProductId` was, because
`closeModal` resets `currentProductId` before the banner text is chosen. -/
theorem save_banner_after_edit :
    ((requests (handleSaveProduct (sessionWith ["EDIT_PRODUCT"]) (domWithForm validForm)
      (.success ()) (.success [sampleProduct 7])
      (openEditModal (sessionWith ["EDIT_PRODUCT"]) 7 (.success (sampleProduct 7))
        initialState).1).2).map (fun r => (r.method, r.url)) =
      [(.PUT, "https://bodega.test/api/products/7"),
        (.GET, "https://bodega.test/api/products")] ∧
    successBanners (handleSaveProduct (sessionWith ["EDIT_PRODUCT"]) (domWithForm validForm)
      (.success ()) (.success [sampleProduct 7])
      (openEditModal (sessionWith ["EDIT_PRODUCT"]) 7 (.success (sampleProduct 7))
        initialState).1).2 = ["Producto agregado"]) ∧
    (∀ (env : Env) (dom : Dom) (loadResp : Response (List Product)) (s : ViewState)
      (productData : List (String × String)),
      (env.hasPermission "ADD_PRODUCT" = true ∨ env.hasPermission "EDIT_PRODUCT" = true) →
      dom.productForm = some productData →
      (validateProductData productData).1 = true →
      Effect.showSuccess "Producto agregado" ∈
        (handleSaveProduct env dom (.success ()) loadResp s).2 ∧
      Effect.showSuccess "Producto actualizado" ∉
        (handleSaveProduct env dom (.success ()) loadResp s).2) := by
  refine ⟨⟨by decide, by decide⟩, ?_⟩
  intro env dom loadResp s productData hperm hform hvalid
  rw [handleSaveProduct_success env dom loadResp s productData hperm hform hvalid]
  have hno := loadProducts_no_banner env loadResp { s with currentProductId := none }
    "Producto actualizado"
  constructor
  · simp
  · simp only [List.mem_cons, List.mem_append, List.mem_singleton, reduceCtorEq, false_or,
      Effect.showSuccess.injEq, not_or]
    exact ⟨hno, by decide⟩

end InventoryPage
